import Mathlib

/-!
# Verification of the telkomasia evidence backend

Shallow embedding of `src/evidence.py`: a Flask + MySQL application that
stores field-work orders ("DW"/"FAT"), their photo evidence, and users, and
renders a per-order PDF report.

The relational store (tables `users`, `orders`, `photos`, `fat_photos`) is
modelled as lists of rows plus the AUTO_INCREMENT counters.  Each endpoint
becomes a pure function from the database state (and the request payload) to
a response plus the successor state; MySQL transaction semantics are made
explicit: every failure path returns the original state (the code either
calls `conn.rollback()` in its `except` clause or lets the connection close
without `commit`, which discards the transaction).

External collaborators are abstracted exactly where the Python code delegates
to them: base64/image decoding inside the PDF generator is a `String → Bool`
success oracle (the code wraps it in a per-photo `try/except`), and MySQL
driver errors during `create_order` are a statement-indexed failure oracle.
Wall-clock timestamps (`CURRENT_TIMESTAMP`, `datetime.now()`) are irrelevant
to every verified property; stored `created_at` values are fixed to `0` and
the PDF generator takes the formatted time as a parameter.
-/

/-- Row of the `users` table (`init_db`, lines 164-172). -/
structure User where
  id : Nat
  username : String
  password : String
  role : String
  created_at : Nat
deriving Repr, DecidableEq

/-- Row of the `orders` table (lines 177-188).  `materials` holds a JSON
array of strings in a TEXT column; since `json.loads (json.dumps l) = l`
for a list of strings, it is modelled directly as `List String`.
`foto_count` is nullable (`update_order` stores `data.get('fotoCount')`,
which may be `None`). -/
structure OrderRow where
  id : Nat
  order_id : String
  type : String
  nama_teknisi : String
  materials : List String
  foto_count : Option Nat
  created_by : Option String
  created_at : Nat
deriving Repr, DecidableEq

/-- Row of the `photos` table, evidence of a "DW" order (lines 193-202). -/
structure DwPhoto where
  id : Nat
  order_id : Nat
  image_data : String
  caption : String
  photo_index : Nat
deriving Repr, DecidableEq

/-- Row of the `fat_photos` table, evidence of a "FAT" order (lines 207-215). -/
structure FatPhoto where
  id : Nat
  order_id : Nat
  photo_key : String
  image_data : String
deriving Repr, DecidableEq

/-- The database state: the four tables plus the AUTO_INCREMENT counter of
each table's `id` column. -/
structure DB where
  users : List User
  orders : List OrderRow
  photos : List DwPhoto
  fat_photos : List FatPhoto
  next_user_pk : Nat
  next_order_pk : Nat
  next_photo_pk : Nat
  next_fat_pk : Nat
deriving Repr, DecidableEq

/-- State produced by `init_db` on an empty database: the two seeded users
and empty order/photo tables (MySQL AUTO_INCREMENT starts at 1). -/
def initDB : DB :=
  { users := [⟨1, "admin", "admin123", "admin", 0⟩,
              ⟨2, "teknisi", "teknisi123", "user", 0⟩],
    orders := [], photos := [], fat_photos := [],
    next_user_pk := 3, next_order_pk := 1, next_photo_pk := 1, next_fat_pk := 1 }

/-- `cursor.fetchone()` after a `SELECT ... WHERE` filter: the first row
satisfying the predicate, if any. -/
def fetchFirst {α : Type} (p : α → Bool) : List α → Option α
  | [] => none
  | x :: xs => if p x then some x else fetchFirst p xs

/-- Python truthiness of an optional string: `None` and `""` are falsy. -/
def pyTruthy : Option String → Bool
  | none => false
  | some s => !(s == "")

/-- Python `a or b` on optional strings. -/
def pyOr (a b : Option String) : Option String :=
  if pyTruthy a then a else b

/-- Python `str(x)` for a nullable integer column (`None` prints as "None"). -/
def pyStrOptNat : Option Nat → String
  | none => "None"
  | some n => toString n

-- ===========================================
-- Admin gate (`admin_required`, lines 65-96)
-- ===========================================

/-- The parts of an HTTP request inspected by the `admin_required`
decorator: the `X-User-Role` header, whether the request carries a JSON
body, the JSON fields `userRole`/`role`, and the form fields
`userRole`/`role`.  A `none` field is absent. -/
structure Req where
  header_role : Option String
  is_json : Bool
  json_userRole : Option String
  json_role : Option String
  form_userRole : Option String
  form_role : Option String
deriving Repr, DecidableEq

/-- Role resolution of `admin_required` (lines 72-84): header, then (when
the body is JSON) `userRole or role` from the body, then `userRole or role`
from the form data, each step taken only while the current value is falsy. -/
def resolve_role (r : Req) : Option String :=
  let ur := r.header_role
  let ur := if !(pyTruthy ur) && r.is_json then pyOr r.json_userRole r.json_role else ur
  let ur := if !(pyTruthy ur) then pyOr r.form_userRole r.form_role else ur
  ur

/-- Outcome of the admin gate: pass through to the wrapped handler, or a 403
response whose `debug_info` echoes the received role value. -/
inductive GateResult where
  | allowed
  | forbidden403 (received : Option String)
deriving Repr, DecidableEq

/-- The `admin_required` check (lines 87-95): reject with 403 unless the
resolved role is exactly the string "admin". -/
def admin_required (r : Req) : GateResult :=
  if resolve_role r == some "admin" then GateResult.allowed
  else GateResult.forbidden403 (resolve_role r)

-- ===========================================
-- Login and user management
-- ===========================================

/-- Response of `POST /api/login`. -/
structure LoginResult where
  status : Nat
  user : Option (String × String)
deriving Repr, DecidableEq

/-- The `login` handler (lines 305-339): `SELECT * FROM users WHERE
username = %s AND password = %s`, success with the row's username and role
if a row matches, else 401. -/
def login (db : DB) (username password : String) : LoginResult :=
  match fetchFirst (fun u => u.username == username && u.password == password) db.users with
  | some u => { status := 200, user := some (u.username, u.role) }
  | none => { status := 401, user := none }

/-- The `get_users` handler (lines 344-357): `SELECT id, username, role,
created_at FROM users` — the password column is not selected. -/
def get_users (db : DB) : List (Nat × String × String × Nat) :=
  db.users.map (fun u => (u.id, u.username, u.role, u.created_at))

/-- Response of a mutating endpoint that returns no payload. -/
structure MutResult where
  status : Nat
deriving Repr, DecidableEq

/-- The `delete_user` handler (lines 405-434): fetch the target's role; if
the target exists and is an admin, answer 400 without mutating; otherwise
run `DELETE FROM users WHERE id = %s` and answer success — also when no
such user exists. -/
def delete_user (db : DB) (uid : Nat) : MutResult × DB :=
  match fetchFirst (fun u => u.id == uid) db.users with
  | some u =>
    if u.role == "admin" then (⟨400⟩, db)
    else (⟨200⟩, { db with users := db.users.filter (fun v => v.id != uid) })
  | none => (⟨200⟩, { db with users := db.users.filter (fun v => v.id != uid) })

-- ===========================================
-- Order creation (`create_order`, lines 439-500)
-- ===========================================

/-- One element of the `fotoData` array of a create/update payload.
`foto['src']` raises `KeyError` when absent, `foto.get('caption', '')`
defaults to the empty string. -/
structure DwFotoPayload where
  src : Option String
  caption : Option String
deriving Repr, DecidableEq

/-- JSON payload of `POST /api/orders`.  `none` means the key is absent;
`fatPhotos` is a JSON object, modelled as its key/value pairs in insertion
order (Python dicts preserve it). -/
structure CreateOrderPayload where
  orderId : Option String
  type : Option String
  namaTeknisi : Option String
  materials : List String
  fotoCount : Option Nat
  createdBy : Option String
  fotoData : Option (List DwFotoPayload)
  fatPhotos : Option (List (String × String))
deriving Repr, DecidableEq

/-- Response of `POST /api/orders`. -/
structure CreateResult where
  status : Nat
  id : Option Nat
deriving Repr, DecidableEq

/-- Rows built by the `fotoData` insertion loop (lines 476-480): the loop
index becomes `photo_index`, primary keys are consecutive. -/
def dwRows (oid : Nat) : Nat → Nat → List DwFotoPayload → List DwPhoto
  | _, _, [] => []
  | pk, idx, f :: fs =>
    ⟨pk, oid, f.src.getD "", f.caption.getD "", idx⟩ :: dwRows oid (pk + 1) (idx + 1) fs

/-- Rows built by the `fatPhotos` insertion loop (lines 484-488). -/
def fatRows (oid : Nat) : Nat → List (String × String) → List FatPhoto
  | _, [] => []
  | pk, (k, v) :: fs => ⟨pk, oid, k, v⟩ :: fatRows oid (pk + 1) fs

/-- The validation of `create_order` (line 455): `orderId`, `type` and
`namaTeknisi` must all be truthy. -/
def createValid (p : CreateOrderPayload) : Bool :=
  pyTruthy p.orderId && pyTruthy p.type && pyTruthy p.namaTeknisi

/-- The `fotoData` list actually iterated by `create_order`: only when the
type is "DW" and the key is present (line 475). -/
def dwFdOf (p : CreateOrderPayload) : List DwFotoPayload :=
  if p.type == some "DW" then p.fotoData.getD [] else []

/-- The `fatPhotos` pairs actually iterated by `create_order`: only when the
type is "FAT" and the key is present (line 483). -/
def fatFfOf (p : CreateOrderPayload) : List (String × String) :=
  if p.type == some "FAT" then p.fatPhotos.getD [] else []

/-- Whether the transaction of `create_order` fails before `conn.commit()`
returns.  `e k` injects a MySQL driver error at the k-th statement
(statement 0 is the order INSERT, statements 1.. are the photo INSERTs, the
last index is the COMMIT); a `fotoData` element without `src` raises
`KeyError`.  Any of these aborts the transaction with the state unchanged:
driver errors are caught by the `except Error` clause which rolls back, and
the `KeyError` propagates with the transaction never committed. -/
def createErr (e : Nat → Bool) (p : CreateOrderPayload) : Bool :=
  let nDw := (dwFdOf p).length
  let nFat := (fatFfOf p).length
  e 0
  || (dwFdOf p).any (fun f => f.src.isNone)
  || (List.range nDw).any (fun i => e (1 + i))
  || (List.range nFat).any (fun i => e (1 + nDw + i))
  || e (1 + nDw + nFat)

/-- The database state committed by a successful `create_order`: the new
order row (id `next_order_pk`, the MySQL `lastrowid`) plus the photo rows
of the matching type. -/
def createSuccessDB (db : DB) (p : CreateOrderPayload) : DB :=
  let oid := db.next_order_pk
  { db with
    orders := db.orders ++
      [⟨oid, p.orderId.getD "", p.type.getD "", p.namaTeknisi.getD "",
        p.materials, some (p.fotoCount.getD 0), p.createdBy, 0⟩],
    photos := db.photos ++ dwRows oid db.next_photo_pk 0 (dwFdOf p),
    fat_photos := db.fat_photos ++ fatRows oid db.next_fat_pk (fatFfOf p),
    next_order_pk := db.next_order_pk + 1,
    next_photo_pk := db.next_photo_pk + (dwFdOf p).length,
    next_fat_pk := db.next_fat_pk + (fatFfOf p).length }

/-- The `create_order` handler (lines 439-500): validate, then run the
order INSERT, the photo INSERTs of the matching type, and the COMMIT as one
transaction; any failure rolls the whole transaction back. -/
def create_order (e : Nat → Bool) (db : DB) (p : CreateOrderPayload) :
    CreateResult × DB :=
  if createValid p then
    if createErr e p then (⟨500, none⟩, db)
    else (⟨200, some db.next_order_pk⟩, createSuccessDB db p)
  else (⟨400, none⟩, db)

-- ===========================================
-- Order reads (`get_orders`, `get_order_detail`)
-- ===========================================

/-- Insert a DW photo row into a list kept ascending by `photo_index`. -/
def insertByIdx (x : DwPhoto) : List DwPhoto → List DwPhoto
  | [] => [x]
  | y :: ys => if x.photo_index < y.photo_index then x :: y :: ys else y :: insertByIdx x ys

/-- `ORDER BY photo_index` (stable insertion sort; the rows of one order
always carry pairwise distinct indices, so any correct sort agrees). -/
def sortPhotos : List DwPhoto → List DwPhoto
  | [] => []
  | x :: xs => insertByIdx x (sortPhotos xs)

/-- The camelCase order object assembled by `get_order_detail`
(lines 552-573): the denormalized order row plus, depending on the type,
the `fotoData` list of `(src, caption)` pairs in `photo_index` order or the
`fatPhotos` map as `(photo_key, image_data)` pairs. -/
structure OrderDetail where
  orderId : String
  type : String
  namaTeknisi : String
  materials : List String
  fotoCount : Option Nat
  createdBy : Option String
  fotoData : Option (List (String × String))
  fatPhotos : Option (List (String × String))
deriving Repr, DecidableEq

/-- Response of `GET /api/orders/{id}`. -/
structure DetailResult where
  status : Nat
  order : Option OrderDetail
deriving Repr, DecidableEq

/-- The `get_order_detail` handler (lines 533-578): 404 when no order row
matches the id, otherwise the denormalized order with its photos. -/
def get_order_detail (db : DB) (oid : Nat) : DetailResult :=
  match fetchFirst (fun o => o.id == oid) db.orders with
  | none => { status := 404, order := none }
  | some o =>
    { status := 200,
      order := some
        { orderId := o.order_id, type := o.type, namaTeknisi := o.nama_teknisi,
          materials := o.materials, fotoCount := o.foto_count, createdBy := o.created_by,
          fotoData :=
            if o.type == "DW" then
              some ((sortPhotos (db.photos.filter (fun q => q.order_id == oid))).map
                (fun q => (q.image_data, q.caption)))
            else none,
          fatPhotos :=
            if o.type == "FAT" then
              some ((db.fat_photos.filter (fun q => q.order_id == oid)).map
                (fun q => (q.photo_key, q.image_data)))
            else none } }

-- ===========================================
-- Order update (`update_order`, lines 580-637)
-- ===========================================

/-- JSON payload of `PUT /api/orders/{id}`. -/
structure UpdateOrderPayload where
  materials : List String
  fotoCount : Option Nat
  fotoData : Option (List DwFotoPayload)
  fatPhotos : Option (List (String × String))
deriving Repr, DecidableEq

/-- Whether the transaction of `update_order` fails before the COMMIT: a
`fotoData` element without `src` raises `KeyError`, and inserting a photo
row for a non-existent order violates the FOREIGN KEY constraint of the
photo tables (an `IntegrityError`, caught by `except Error`).  Either way
the transaction is rolled back. -/
def updateErr (db : DB) (oid : Nat) (p : UpdateOrderPayload) : Bool :=
  let fd := p.fotoData.getD []
  let ff := p.fatPhotos.getD []
  let ex := db.orders.any (fun o => o.id == oid)
  (p.fotoData.isSome && !fd.isEmpty && !ex)
  || fd.any (fun f => f.src.isNone)
  || (p.fatPhotos.isSome && !ff.isEmpty && !ex)

/-- The database state committed by a successful `update_order`: the
UPDATE of `materials`/`foto_count`, and for each supplied photo collection
a full replace — DELETE of the order's rows, then the INSERTs. -/
def updateSuccessDB (db : DB) (oid : Nat) (p : UpdateOrderPayload) : DB :=
  { db with
    orders := db.orders.map (fun o =>
      if o.id == oid then { o with materials := p.materials, foto_count := p.fotoCount } else o),
    photos :=
      if p.fotoData.isSome then
        db.photos.filter (fun q => q.order_id != oid)
          ++ dwRows oid db.next_photo_pk 0 (p.fotoData.getD [])
      else db.photos,
    fat_photos :=
      if p.fatPhotos.isSome then
        db.fat_photos.filter (fun q => q.order_id != oid)
          ++ fatRows oid db.next_fat_pk (p.fatPhotos.getD [])
      else db.fat_photos,
    next_photo_pk := db.next_photo_pk + (if p.fotoData.isSome then (p.fotoData.getD []).length else 0),
    next_fat_pk := db.next_fat_pk + (if p.fatPhotos.isSome then (p.fatPhotos.getD []).length else 0) }

/-- The `update_order` handler (lines 580-637): UPDATE the order row (0 or
1 rows affected), replace each supplied photo collection, COMMIT; any
failure rolls the whole transaction back (`except Error` / uncommitted
close). -/
def update_order (db : DB) (oid : Nat) (p : UpdateOrderPayload) : MutResult × DB :=
  if updateErr db oid p then (⟨500⟩, db)
  else (⟨200⟩, updateSuccessDB db oid p)

/-- The `delete_order` handler (lines 639-664): `DELETE FROM orders WHERE
id = %s`; the `ON DELETE CASCADE` clauses of `photos.order_id` and
`fat_photos.order_id` remove the order's photo rows.  The handler answers
success whether or not a row matched. -/
def delete_order (db : DB) (oid : Nat) : MutResult × DB :=
  (⟨200⟩,
   { db with
     orders := db.orders.filter (fun o => o.id != oid),
     photos := db.photos.filter (fun q => q.order_id != oid),
     fat_photos := db.fat_photos.filter (fun q => q.order_id != oid) })

-- ===========================================
-- PDF report (`download_pdf`, lines 703-959)
-- ===========================================

/-- One row of the evidence query of `download_pdf` (lines 728-732): for a
DW order `caption, image_data` ordered by `photo_index`, otherwise
`photo_key AS caption, image_data`. -/
structure PdfFoto where
  image_data : String
  caption : String
deriving Repr, DecidableEq

/-- One element of the evidence section of the generated document: either a
rendered photo table (header "Foto idx", the image, its caption) or the
textual placeholder "Foto idx: Gagal memuat gambar" emitted by the
per-photo `except` clause. -/
inductive Block where
  | photo (idx : Nat) (caption : String)
  | placeholder (idx : Nat)
deriving Repr, DecidableEq

/-- The evidence loop of `download_pdf` (lines 867-930): photos are
numbered by `enumerate(fotos, 1)`; an empty `image_data` is skipped; the
base64-decode / `Image` construction of each photo runs under a per-photo
`try`, whose `except` appends the placeholder paragraph instead and keeps
processing the remaining photos.  `decode` tells whether that decoding
succeeds on the given `image_data` value. -/
def processFotos (decode : String → Bool) : Nat → List PdfFoto → List Block
  | _, [] => []
  | idx, f :: rest =>
    (if f.image_data == "" then []
     else if decode f.image_data then [Block.photo idx f.caption]
     else [Block.placeholder idx])
    ++ processFotos decode (idx + 1) rest

/-- The evidence rows fetched for order row `o` (lines 728-732). -/
def pdfFotosOf (db : DB) (o : OrderRow) : List PdfFoto :=
  if o.type == "DW" then
    (sortPhotos (db.photos.filter (fun q => q.order_id == o.id))).map
      (fun q => ⟨q.image_data, q.caption⟩)
  else
    (db.fat_photos.filter (fun q => q.order_id == o.id)).map
      (fun q => ⟨q.image_data, q.photo_key⟩)

/-- `enumerate(materials, 1)`: the numbered material table rows. -/
def numberMaterials : Nat → List String → List (Nat × String)
  | _, [] => []
  | i, m :: ms => (i, m) :: numberMaterials (i + 1) ms

/-- Structure of the generated PDF document: title, basic-info pairs,
optional materials table, evidence blocks, footer, download filename. -/
structure PdfDoc where
  title : String
  info : List (String × String)
  materialsBlock : Option (List (Nat × String))
  evidence : List Block
  footer : String
  filename : String
deriving Repr, DecidableEq

/-- Response of `GET /api/download-pdf/{id}`. -/
inductive PdfResult where
  | notFound
  | ok (doc : PdfDoc)
deriving Repr, DecidableEq

/-- The `download_pdf` handler (lines 703-959): 404 when the order does not
exist, otherwise the assembled document.  `now` is the formatted
`datetime.now()` value. -/
def download_pdf (decode : String → Bool) (now : String) (db : DB) (oid : Nat) :
    PdfResult :=
  match fetchFirst (fun o => o.id == oid) db.orders with
  | none => PdfResult.notFound
  | some o =>
    PdfResult.ok
      { title := "LAPORAN " ++ o.type ++ " - " ++ o.order_id,
        info := [("Order ID", o.order_id), ("Nama Teknisi", o.nama_teknisi),
                 ("Tipe Pekerjaan", o.type), ("Jumlah Foto", pyStrOptNat o.foto_count),
                 ("Tanggal", now)],
        materialsBlock := if o.materials.isEmpty then none else some (numberMaterials 1 o.materials),
        evidence := processFotos decode 1 (pdfFotosOf db o),
        footer := "Dokumen dibuat otomatis pada " ++ now,
        filename := o.type ++ "_" ++ o.order_id ++ ".pdf" }

-- ===========================================
-- Auxiliary definitions for the verified claims
-- ===========================================

/-- Failure oracle of a run in which the MySQL driver raises no error. -/
def noErr : Nat → Bool := fun _ => false

/-- The role sources in the priority order stated by the specification:
HTTP header, then (for a JSON body) the JSON fields `userRole`, `role`,
then the form fields `userRole`, `role`. -/
def roleSources (r : Req) : List (Option String) :=
  [r.header_role]
    ++ (if r.is_json then [r.json_userRole, r.json_role] else [])
    ++ [r.form_userRole, r.form_role]

/-- Spec-side resolution: the first non-empty source wins. -/
def firstTruthy : List (Option String) → Option String
  | [] => none
  | o :: os => if pyTruthy o then o else firstTruthy os

/-- Two user tables agree on every column except `password` (same length,
rows pairwise equal in `id`, `username`, `role`, `created_at`). -/
def usersAgreeExceptPassword : List User → List User → Bool
  | [], [] => true
  | u :: us, v :: vs =>
    u.id == v.id && u.username == v.username && u.role == v.role
      && u.created_at == v.created_at && usersAgreeExceptPassword us vs
  | _, _ => false

/-- The claimed invariant: a "DW" order owns no `fat_photos` rows and a
"FAT" order owns no `photos` rows. -/
def claimInv (db : DB) : Prop :=
  ∀ o ∈ db.orders,
    (o.type = "DW" → ∀ fp ∈ db.fat_photos, fp.order_id ≠ o.id)
    ∧ (o.type = "FAT" → ∀ q ∈ db.photos, q.order_id ≠ o.id)

/-- States reachable from the initialized database through `create_order`,
`update_order` and `delete_order`, with arbitrary payloads. -/
inductive Reachable : DB → Prop where
  | init : Reachable initDB
  | step_create (e : Nat → Bool) (p : CreateOrderPayload) {db : DB} :
      Reachable db → Reachable (create_order e db p).2
  | step_update (oid : Nat) (p : UpdateOrderPayload) {db : DB} :
      Reachable db → Reachable (update_order db oid p).2
  | step_delete (oid : Nat) {db : DB} :
      Reachable db → Reachable (delete_order db oid).2

/-- An update payload is type-compatible with the store when any photo
collection it supplies matches the type of the targeted order: no
`fatPhotos` for a "DW" order, no `fotoData` for a "FAT" order. -/
def updCompat (db : DB) (oid : Nat) (p : UpdateOrderPayload) : Prop :=
  ∀ o ∈ db.orders, o.id = oid →
    (p.fotoData ≠ none → o.type = "DW") ∧ (p.fatPhotos ≠ none → o.type = "FAT")

/-- States reachable through `create_order`, `delete_order`, and
type-compatible `update_order` requests. -/
inductive ReachableW : DB → Prop where
  | init : ReachableW initDB
  | step_create (e : Nat → Bool) (p : CreateOrderPayload) {db : DB} :
      ReachableW db → ReachableW (create_order e db p).2
  | step_update (oid : Nat) (p : UpdateOrderPayload) {db : DB} :
      ReachableW db → updCompat db oid p → ReachableW (update_order db oid p).2
  | step_delete (oid : Nat) {db : DB} :
      ReachableW db → ReachableW (delete_order db oid).2

/-- Structural facts maintained by the store: every row id is below its
table's AUTO_INCREMENT counter and order ids are pairwise distinct. -/
def pkBounds (db : DB) : Prop :=
  (∀ o ∈ db.orders, o.id < db.next_order_pk)
  ∧ (∀ q ∈ db.photos, q.order_id < db.next_order_pk ∧ q.id < db.next_photo_pk)
  ∧ (∀ q ∈ db.fat_photos, q.order_id < db.next_order_pk ∧ q.id < db.next_fat_pk)

/-- Order ids are pairwise distinct (`id` is the PRIMARY KEY). -/
def ordersNodup (db : DB) : Prop := (db.orders.map (fun o => o.id)).Nodup

/-- The inductive invariant: primary-key discipline plus the photo
exclusivity property. -/
def StoreInv (db : DB) : Prop := pkBounds db ∧ ordersNodup db ∧ claimInv db

-- Concrete inputs used by witnesses and counterexamples.

/-- A well-formed "DW" creation payload with two photos. -/
def pDW0 : CreateOrderPayload :=
  { orderId := some "DW-100", type := some "DW", namaTeknisi := some "Budi",
    materials := ["Kabel", "Konektor"], fotoCount := some 2, createdBy := some "admin",
    fotoData := some [⟨some "imgA", some "Before"⟩, ⟨some "imgB", some "After"⟩],
    fatPhotos := none }

/-- A well-formed "FAT" creation payload with a two-key photo map. -/
def pFAT0 : CreateOrderPayload :=
  { orderId := some "FAT-1", type := some "FAT", namaTeknisi := some "Asep",
    materials := [], fotoCount := some 2, createdBy := some "admin",
    fotoData := none, fatPhotos := some [("front", "imgA"), ("back", "imgB")] }

/-- An update payload that attaches FAT photos (to be aimed at a DW order). -/
def pUpdFat0 : UpdateOrderPayload :=
  { materials := ["Kabel"], fotoCount := some 1, fotoData := none,
    fatPhotos := some [("front", "imgF")] }

/-- An update payload that replaces the DW photo list. -/
def pUpdDW0 : UpdateOrderPayload :=
  { materials := ["Patchcord"], fotoCount := some 1,
    fotoData := some [⟨some "imgC", some "Hasil"⟩], fatPhotos := none }

/-- Database after creating the DW order of `pDW0` on the fresh store. -/
def dbDW1 : DB := (create_order noErr initDB pDW0).2

/-- Database after creating the FAT order of `pFAT0` on the fresh store. -/
def dbFat1 : DB := (create_order noErr initDB pFAT0).2

/-- Database after an update that attaches FAT photos to the DW order. -/
def dbBad : DB := (update_order dbDW1 1 pUpdFat0).2

/-- The order row stored for `pFAT0`. -/
def oFat : OrderRow := ⟨1, "FAT-1", "FAT", "Asep", [], some 2, some "admin", 0⟩

/-- The document generated for `dbFat1` when every photo decode fails. -/
def docFat : PdfDoc :=
  { title := "LAPORAN FAT - FAT-1",
    info := [("Order ID", "FAT-1"), ("Nama Teknisi", "Asep"),
             ("Tipe Pekerjaan", "FAT"), ("Jumlah Foto", "2"), ("Tanggal", "T")],
    materialsBlock := none,
    evidence := [Block.placeholder 1, Block.placeholder 2],
    footer := "Dokumen dibuat otomatis pada T",
    filename := "FAT_FAT-1.pdf" }

/-- A user table that differs from `initDB`'s only in the password column. -/
def initDBAltPw : DB :=
  { initDB with users := [⟨1, "admin", "hunter2", "admin", 0⟩,
                          ⟨2, "teknisi", "changed", "user", 0⟩] }

-- ===========================================
-- Helper lemmas
-- ===========================================

lemma fetchFirst_eq_none {α : Type} (p : α → Bool) (l : List α) :
    fetchFirst p l = none ↔ ∀ x ∈ l, p x = false := by
  induction l with
  | nil => simp [fetchFirst]
  | cons x xs ih => by_cases h : p x <;> simp [fetchFirst, h, ih]

lemma fetchFirst_mem {α : Type} {p : α → Bool} {l : List α} {x : α}
    (h : fetchFirst p l = some x) : x ∈ l ∧ p x = true := by
  induction l with
  | nil => simp [fetchFirst] at h
  | cons y ys ih =>
    by_cases hy : p y
    · simp [fetchFirst, hy] at h
      subst h
      exact ⟨List.mem_cons_self y ys, hy⟩
    · simp [fetchFirst, hy] at h
      rcases ih h with ⟨h1, h2⟩
      exact ⟨List.mem_cons_of_mem y h1, h2⟩

lemma fetchFirst_eq_head_filter {α : Type} (p : α → Bool) (l : List α) :
    fetchFirst p l = (l.filter p).head? := by
  induction l with
  | nil => rfl
  | cons x xs ih => by_cases h : p x <;> simp [fetchFirst, List.filter_cons, h, ih]

lemma fetchFirst_append_right {α : Type} (p : α → Bool) (l : List α) (x : α)
    (h : ∀ y ∈ l, p y = false) :
    fetchFirst p (l ++ [x]) = if p x then some x else none := by
  induction l with
  | nil => rfl
  | cons y ys ih =>
    have hy := h y (List.mem_cons_self y ys)
    simp only [List.cons_append, fetchFirst, hy, if_false, Bool.false_eq_true]
    exact ih (fun z hz => h z (List.mem_cons_of_mem y hz))

lemma filter_eq_nil_of_false {α : Type} {p : α → Bool} {l : List α}
    (h : ∀ x ∈ l, p x = false) : l.filter p = [] := by
  induction l with
  | nil => rfl
  | cons x xs ih =>
    have hx := h x (List.mem_cons_self x xs)
    simp [List.filter_cons, hx, ih (fun z hz => h z (List.mem_cons_of_mem x hz))]

lemma filter_eq_self_of_true {α : Type} {p : α → Bool} {l : List α}
    (h : ∀ x ∈ l, p x = true) : l.filter p = l := by
  induction l with
  | nil => rfl
  | cons x xs ih =>
    have hx := h x (List.mem_cons_self x xs)
    simp [List.filter_cons, hx, ih (fun z hz => h z (List.mem_cons_of_mem x hz))]

lemma length_filter_partition {α : Type} (p : α → Bool) (l : List α) :
    (l.filter p).length + (l.filter (fun a => !(p a))).length = l.length := by
  induction l with
  | nil => rfl
  | cons x xs ih => by_cases h : p x <;> simp [List.filter_cons, h] <;> omega

lemma nodup_append_singleton {α : Type} {l : List α} {a : α}
    (hl : l.Nodup) (ha : a ∉ l) : (l ++ [a]).Nodup := by
  induction l with
  | nil => simp
  | cons x xs ih =>
    rw [List.nodup_cons] at hl
    have hax : a ∉ xs := fun h => ha (List.mem_cons_of_mem x h)
    refine List.nodup_cons.mpr ⟨?_, ih hl.2 hax⟩
    intro hx
    rcases List.mem_append.mp hx with h1 | h2
    · exact hl.1 h1
    · have hxa : x = a := by simpa using h2
      subst hxa
      exact ha (List.mem_cons_self x xs)

lemma nodup_map_filter {α β : Type} {f : α → β} {q : α → Bool} {l : List α}
    (h : (l.map f).Nodup) : ((l.filter q).map f).Nodup := by
  induction l with
  | nil => simp
  | cons x xs ih =>
    rw [List.map_cons, List.nodup_cons] at h
    by_cases hq : q x
    · rw [List.filter_cons_of_pos hq, List.map_cons, List.nodup_cons]
      refine ⟨fun hmem => h.1 ?_, ih h.2⟩
      rcases List.mem_map.mp hmem with ⟨y, hy, hfy⟩
      exact List.mem_map.mpr ⟨y, List.mem_of_mem_filter hy, hfy⟩
    · rw [List.filter_cons_of_neg hq]
      exact ih h.2

lemma map_nodup_inj {α : Type} {f : α → Nat} {l : List α}
    (hnd : (l.map f).Nodup) {x y : α} (hx : x ∈ l) (hy : y ∈ l)
    (hf : f x = f y) : x = y := by
  induction l with
  | nil => cases hx
  | cons a as ih =>
    rw [List.map_cons, List.nodup_cons] at hnd
    rcases List.mem_cons.mp hx with rfl | hx2
    · rcases List.mem_cons.mp hy with rfl | hy2
      · rfl
      · exact absurd (List.mem_map.mpr ⟨y, hy2, hf.symm⟩) hnd.1
    · rcases List.mem_cons.mp hy with rfl | hy2
      · exact absurd (List.mem_map.mpr ⟨x, hx2, hf⟩) hnd.1
      · exact ih hnd.2 hx2 hy2

lemma dwRows_length (oid : Nat) :
    ∀ (fd : List DwFotoPayload) (pk idx : Nat), (dwRows oid pk idx fd).length = fd.length
  | [], _, _ => rfl
  | _ :: fs, pk, idx => by simp [dwRows, dwRows_length oid fs (pk + 1) (idx + 1)]

lemma fatRows_length (oid : Nat) :
    ∀ (ff : List (String × String)) (pk : Nat), (fatRows oid pk ff).length = ff.length
  | [], _ => rfl
  | (k, v) :: fs, pk => by simp [fatRows, fatRows_length oid fs (pk + 1)]

lemma mem_dwRows {oid : Nat} :
    ∀ {fd : List DwFotoPayload} {pk idx : Nat} {r : DwPhoto},
      r ∈ dwRows oid pk idx fd →
      r.order_id = oid ∧ pk ≤ r.id ∧ r.id < pk + fd.length ∧ idx ≤ r.photo_index := by
  intro fd
  induction fd with
  | nil => intro pk idx r h; simp [dwRows] at h
  | cons f fs ih =>
    intro pk idx r h
    rcases List.mem_cons.mp h with rfl | h2
    · refine ⟨rfl, Nat.le_refl _, ?_, Nat.le_refl _⟩
      show pk < pk + (f :: fs).length
      rw [List.length_cons]
      omega
    · rcases ih h2 with ⟨h3, h4, h5, h6⟩
      refine ⟨h3, Nat.le_of_succ_le h4, ?_, Nat.le_of_succ_le h6⟩
      rw [List.length_cons]
      omega

lemma mem_fatRows {oid : Nat} :
    ∀ {ff : List (String × String)} {pk : Nat} {r : FatPhoto},
      r ∈ fatRows oid pk ff →
      r.order_id = oid ∧ pk ≤ r.id ∧ r.id < pk + ff.length := by
  intro ff
  induction ff with
  | nil => intro pk r h; simp [fatRows] at h
  | cons f fs ih =>
    intro pk r h
    rcases f with ⟨k, v⟩
    rcases List.mem_cons.mp h with rfl | h2
    · refine ⟨rfl, Nat.le_refl _, ?_⟩
      show pk < pk + ((k, v) :: fs).length
      rw [List.length_cons]
      omega
    · rcases ih h2 with ⟨h3, h4, h5⟩
      refine ⟨h3, Nat.le_of_succ_le h4, ?_⟩
      rw [List.length_cons]
      omega

lemma dwRows_map_content (oid : Nat) :
    ∀ (fd : List DwFotoPayload) (pk idx : Nat),
      (dwRows oid pk idx fd).map (fun r => (r.image_data, r.caption))
        = fd.map (fun f => (f.src.getD "", f.caption.getD ""))
  | [], _, _ => rfl
  | f :: fs, pk, idx => by
    simp [dwRows, dwRows_map_content oid fs (pk + 1) (idx + 1)]

lemma fatRows_map_content (oid : Nat) :
    ∀ (ff : List (String × String)) (pk : Nat),
      (fatRows oid pk ff).map (fun r => (r.photo_key, r.image_data)) = ff
  | [], _ => rfl
  | (k, v) :: fs, pk => by
    simp [fatRows, fatRows_map_content oid fs (pk + 1)]

lemma dwRows_filter_self (oid : Nat) :
    ∀ (fd : List DwFotoPayload) (pk idx : Nat),
      (dwRows oid pk idx fd).filter (fun q => q.order_id == oid) = dwRows oid pk idx fd := by
  intro fd pk idx
  refine filter_eq_self_of_true (fun r hr => ?_)
  have := (mem_dwRows hr).1
  simp [this]

lemma fatRows_filter_self (oid : Nat) :
    ∀ (ff : List (String × String)) (pk : Nat),
      (fatRows oid pk ff).filter (fun q => q.order_id == oid) = fatRows oid pk ff := by
  intro ff pk
  refine filter_eq_self_of_true (fun r hr => ?_)
  have := (mem_fatRows hr).1
  simp [this]

lemma sortPhotos_dwRows (oid : Nat) :
    ∀ (fd : List DwFotoPayload) (pk idx : Nat),
      sortPhotos (dwRows oid pk idx fd) = dwRows oid pk idx fd := by
  intro fd
  induction fd with
  | nil => intro pk idx; rfl
  | cons f fs ih =>
    intro pk idx
    rw [dwRows, sortPhotos, ih (pk + 1) (idx + 1)]
    cases fs with
    | nil => rfl
    | cons g gs => simp [dwRows, insertByIdx]

-- ===========================================
-- C3: admin gate precedence and rejection
-- ===========================================

/-- C3: for every admin-gated request, the role is resolved by checking, in
this exact order, the HTTP header, then the JSON body fields `userRole` or
`role`, then the form fields `userRole` or `role`, the first non-empty
source winning; and whenever the resolved value is not exactly "admin" the
request is rejected with 403 and a diagnostic echoing the received value. -/
theorem admin_gate_precedence (r : Req) :
    ((firstTruthy (roleSources r)).isSome → resolve_role r = firstTruthy (roleSources r))
    ∧ (resolve_role r = some "admin" → admin_required r = GateResult.allowed)
    ∧ (resolve_role r ≠ some "admin" →
        admin_required r = GateResult.forbidden403 (resolve_role r)) := by
  refine ⟨?_, ?_, ?_⟩
  · intro hs
    by_cases h1 : pyTruthy r.header_role
    · simp [resolve_role, roleSources, firstTruthy, h1]
    · by_cases hj : r.is_json
      · by_cases h2 : pyTruthy r.json_userRole
        · simp [resolve_role, roleSources, firstTruthy, pyOr, h1, hj, h2]
        · by_cases h3 : pyTruthy r.json_role
          · simp [resolve_role, roleSources, firstTruthy, pyOr, h1, hj, h2, h3]
          · by_cases h4 : pyTruthy r.form_userRole
            · simp [resolve_role, roleSources, firstTruthy, pyOr, h1, hj, h2, h3, h4]
            · by_cases h5 : pyTruthy r.form_role
              · simp [resolve_role, roleSources, firstTruthy, pyOr, h1, hj, h2, h3, h4, h5]
              · exfalso
                simp [roleSources, firstTruthy, h1, hj, h2, h3, h4, h5] at hs
      · by_cases h4 : pyTruthy r.form_userRole
        · simp [resolve_role, roleSources, firstTruthy, pyOr, h1, hj, h4]
        · by_cases h5 : pyTruthy r.form_role
          · simp [resolve_role, roleSources, firstTruthy, pyOr, h1, hj, h4, h5]
          · exfalso
            simp [roleSources, firstTruthy, h1, hj, h4, h5] at hs
  · intro h
    simp [admin_required, h]
  · intro h
    simp [admin_required, h]

/-- Witness for C3: a request whose only role value is the JSON `userRole`
field "user" is rejected with the value echoed, and a form-only "admin"
request is allowed. -/
theorem admin_gate_precedence_witness :
    resolve_role ⟨none, true, some "user", none, none, none⟩
        = firstTruthy (roleSources ⟨none, true, some "user", none, none, none⟩)
    ∧ admin_required ⟨none, true, some "user", none, none, none⟩
        = GateResult.forbidden403 (resolve_role ⟨none, true, some "user", none, none, none⟩)
    ∧ admin_required ⟨none, false, none, none, some "admin", none⟩ = GateResult.allowed := by
  refine ⟨?_, ?_, ?_⟩
  · exact (admin_gate_precedence ⟨none, true, some "user", none, none, none⟩).1 (by decide)
  · exact (admin_gate_precedence ⟨none, true, some "user", none, none, none⟩).2.2 (by decide)
  · exact (admin_gate_precedence ⟨none, false, none, none, some "admin", none⟩).2.1 (by decide)

-- ===========================================
-- C9: login is exact-match lookup
-- ===========================================

/-- C9: login succeeds, returning the stored user's username and role,
exactly when some stored record matches both the username and the password;
otherwise it answers 401. -/
theorem login_exact_match (db : DB) (un pw : String) :
    ((∃ u ∈ db.users, u.username = un ∧ u.password = pw) →
      (login db un pw).status = 200
      ∧ ∃ u ∈ db.users, u.username = un ∧ u.password = pw
          ∧ (login db un pw).user = some (u.username, u.role))
    ∧ ((¬ ∃ u ∈ db.users, u.username = un ∧ u.password = pw) →
      login db un pw = { status := 401, user := none }) := by
  constructor
  · intro h
    cases hf : fetchFirst (fun u => u.username == un && u.password == pw) db.users with
    | none =>
      exfalso
      obtain ⟨u, hu, h1, h2⟩ := h
      have := (fetchFirst_eq_none _ _).mp hf u hu
      simp [h1, h2] at this
    | some u =>
      obtain ⟨hu, hp⟩ := fetchFirst_mem hf
      simp only [Bool.and_eq_true, beq_iff_eq] at hp
      exact ⟨by simp [login, hf], u, hu, hp.1, hp.2, by simp [login, hf]⟩
  · intro h
    cases hf : fetchFirst (fun u => u.username == un && u.password == pw) db.users with
    | none => simp [login, hf]
    | some u =>
      exfalso
      obtain ⟨hu, hp⟩ := fetchFirst_mem hf
      simp only [Bool.and_eq_true, beq_iff_eq] at hp
      exact h ⟨u, hu, hp.1, hp.2⟩

/-- Witness for C9: the seeded admin credentials log in and a wrong
password is rejected with 401. -/
theorem login_exact_match_witness :
    ((login initDB "admin" "admin123").status = 200
      ∧ ∃ u ∈ initDB.users, u.username = "admin" ∧ u.password = "admin123"
          ∧ (login initDB "admin" "admin123").user = some (u.username, u.role))
    ∧ login initDB "admin" "wrong" = { status := 401, user := none } := by
  refine ⟨?_, ?_⟩
  · exact (login_exact_match initDB "admin" "admin123").1
      ⟨⟨1, "admin", "admin123", "admin", 0⟩, by decide, rfl, rfl⟩
  · exact (login_exact_match initDB "admin" "wrong").2 (by decide)

-- ===========================================
-- C10: the users listing never exposes passwords
-- ===========================================

lemma get_users_agree :
    ∀ (l1 l2 : List User), usersAgreeExceptPassword l1 l2 = true →
      l1.map (fun u => (u.id, u.username, u.role, u.created_at))
        = l2.map (fun u => (u.id, u.username, u.role, u.created_at))
  | [], [], _ => rfl
  | [], _ :: _, h => by simp [usersAgreeExceptPassword] at h
  | _ :: _, [], h => by simp [usersAgreeExceptPassword] at h
  | u :: us, v :: vs, h => by
    simp only [usersAgreeExceptPassword, Bool.and_eq_true, beq_iff_eq] at h
    obtain ⟨⟨⟨⟨h1, h2⟩, h3⟩, h4⟩, h5⟩ := h
    simp [h1, h2, h3, h4, get_users_agree us vs h5]

/-- C10: `GET /api/users` selects only id, username, role and created_at,
so two user tables that differ only in password values produce the same
response. -/
theorem get_users_no_password_leak (db1 db2 : DB)
    (h : usersAgreeExceptPassword db1.users db2.users = true) :
    get_users db1 = get_users db2 :=
  get_users_agree db1.users db2.users h

/-- Witness for C10: changing both seeded passwords leaves the listing
unchanged. -/
theorem get_users_no_password_leak_witness :
    usersAgreeExceptPassword initDB.users initDBAltPw.users = true
    ∧ get_users initDB = get_users initDBAltPw :=
  ⟨by decide, get_users_no_password_leak initDB initDBAltPw (by decide)⟩

-- ===========================================
-- C8: delete_user admin guard
-- ===========================================

lemma users_filter_id_singleton {l : List User} {u : User}
    (hnd : (l.map (fun v => v.id)).Nodup) (hu : u ∈ l) :
    l.filter (fun v => v.id == u.id) = [u] := by
  induction l with
  | nil => cases hu
  | cons x xs ih =>
    rw [List.map_cons, List.nodup_cons] at hnd
    rcases List.mem_cons.mp hu with rfl | hmem
    · rw [List.filter_cons_of_pos (by simp)]
      have hnil : xs.filter (fun v => v.id == u.id) = [] := by
        refine filter_eq_nil_of_false (fun v hv => ?_)
        by_cases hvu : v.id = u.id
        · exact absurd (List.mem_map.mpr ⟨v, hv, hvu⟩) hnd.1
        · simp [hvu]
      rw [hnil]
    · have hne : x.id ≠ u.id := fun he => hnd.1 (List.mem_map.mpr ⟨u, hmem, he.symm⟩)
      rw [List.filter_cons_of_neg (by simp [hne])]
      exact ih hnd.2 hmem

lemma users_length_split (l : List User) (n : Nat) :
    (l.filter (fun v => v.id == n)).length + (l.filter (fun v => v.id != n)).length
      = l.length := by
  induction l with
  | nil => rfl
  | cons x xs ih => by_cases h : x.id = n <;> simp [List.filter_cons, h] <;> omega

/-- C8: deleting a user whose role is "admin" always fails with the store
unchanged; deleting a user of any other role removes exactly that user's
row and no other. -/
theorem delete_user_admin_guard (db : DB) (uid : Nat) (u : User)
    (hnd : (db.users.map (fun v => v.id)).Nodup)
    (hu : u ∈ db.users) (hid : u.id = uid) :
    (u.role = "admin" → delete_user db uid = (⟨400⟩, db))
    ∧ (u.role ≠ "admin" →
        (delete_user db uid).1.status = 200
        ∧ u ∉ (delete_user db uid).2.users
        ∧ (∀ v ∈ db.users, v ≠ u → v ∈ (delete_user db uid).2.users)
        ∧ db.users.length = (delete_user db uid).2.users.length + 1) := by
  subst hid
  have hsing := users_filter_id_singleton hnd hu
  have hf : fetchFirst (fun v => v.id == u.id) db.users = some u := by
    rw [fetchFirst_eq_head_filter, hsing]
    rfl
  constructor
  · intro hrole
    simp [delete_user, hf, hrole]
  · intro hrole
    have hres : delete_user db u.id
        = (⟨200⟩, { db with users := db.users.filter (fun v => v.id != u.id) }) := by
      simp [delete_user, hf, hrole]
    refine ⟨by rw [hres], ?_, ?_, ?_⟩
    · rw [hres]
      intro hmem
      have := (List.mem_filter.mp hmem).2
      simp at this
    · intro v hv hvne
      rw [hres]
      refine List.mem_filter.mpr ⟨hv, ?_⟩
      have : v.id ≠ u.id := fun he => hvne (map_nodup_inj hnd hv hu he)
      simp [this]
    · rw [hres]
      show db.users.length = (db.users.filter (fun v => v.id != u.id)).length + 1
      have hpart := users_length_split db.users u.id
      rw [hsing] at hpart
      simp only [List.length_cons, List.length_nil] at hpart
      omega

/-- Witness for C8: deleting the seeded non-admin user removes exactly that
row, and the theorem's admin branch blocks deleting the seeded admin. -/
theorem delete_user_admin_guard_witness :
    ((delete_user initDB 2).1.status = 200
      ∧ (⟨2, "teknisi", "teknisi123", "user", 0⟩ : User) ∉ (delete_user initDB 2).2.users
      ∧ (∀ v ∈ initDB.users,
            v ≠ ⟨2, "teknisi", "teknisi123", "user", 0⟩ → v ∈ (delete_user initDB 2).2.users)
      ∧ initDB.users.length = (delete_user initDB 2).2.users.length + 1)
    ∧ delete_user initDB 1 = (⟨400⟩, initDB) := by
  constructor
  · exact (delete_user_admin_guard initDB 2 ⟨2, "teknisi", "teknisi123", "user", 0⟩
      (by decide) (by decide) rfl).2 (by decide)
  · exact (delete_user_admin_guard initDB 1 ⟨1, "admin", "admin123", "admin", 0⟩
      (by decide) (by decide) rfl).1 rfl

-- ===========================================
-- C4: status codes on unknown ids (corrected)
-- ===========================================

/-- Counterexample to C4 as stated: id 99 names no order in the
initialized store, yet `DELETE /api/orders/99` answers 200, not 404. -/
theorem unknown_id_counterexample :
    fetchFirst (fun o => o.id == 99) initDB.orders = none
    ∧ (delete_order initDB 99).1.status = 200
    ∧ (delete_order initDB 99).1.status ≠ 404 := by
  refine ⟨rfl, rfl, by decide⟩

/-- C4 amended: an unknown order id yields 404 on GET order detail and on
the PDF download, but `delete_order` answers 200, `update_order` without a
photo payload answers 200, and `delete_user` on an unknown user id answers
200 (the DELETE matches no row and is committed as a success). -/
theorem unknown_id_statuses (db : DB) (oid : Nat) (decode : String → Bool)
    (now : String) (p : UpdateOrderPayload) (uid : Nat)
    (ho : fetchFirst (fun o => o.id == oid) db.orders = none) :
    (get_order_detail db oid).status = 404
    ∧ download_pdf decode now db oid = PdfResult.notFound
    ∧ (delete_order db oid).1.status = 200
    ∧ (p.fotoData = none → p.fatPhotos = none → (update_order db oid p).1.status = 200)
    ∧ (fetchFirst (fun v => v.id == uid) db.users = none →
        (delete_user db uid).1.status = 200) := by
  refine ⟨?_, ?_, rfl, ?_, ?_⟩
  · simp [get_order_detail, ho]
  · simp [download_pdf, ho]
  · intro h1 h2
    simp [update_order, updateErr, h1, h2]
  · intro hu
    simp [delete_user, hu]

/-- Witness for C4 (amended): the concrete statuses at the unknown id 99 on
the initialized store. -/
theorem unknown_id_statuses_witness :
    (get_order_detail initDB 99).status = 404
    ∧ download_pdf (fun _ => false) "T" initDB 99 = PdfResult.notFound
    ∧ (delete_order initDB 99).1.status = 200
    ∧ (update_order initDB 99 ⟨[], none, none, none⟩).1.status = 200
    ∧ (delete_user initDB 99).1.status = 200 := by
  have h := unknown_id_statuses initDB 99 (fun _ => false) "T" ⟨[], none, none, none⟩ 99 rfl
  exact ⟨h.1, h.2.1, h.2.2.1, h.2.2.2.1 rfl rfl, h.2.2.2.2 (by decide)⟩

-- ===========================================
-- C2: create_order is transactional
-- ===========================================

/-- C2: `create_order` persists the order row together with all photo rows
of the matching type, or nothing: every failure — validation, a missing
photo `src`, or a MySQL error injected at any statement of the transaction
(order INSERT, each photo INSERT, COMMIT) — leaves the store unchanged,
and success appends exactly the order row and its photo rows. -/
theorem create_order_transactional (e : Nat → Bool) (db : DB) (p : CreateOrderPayload) :
    ((create_order e db p).1.status ≠ 200 → (create_order e db p).2 = db)
    ∧ ((create_order e db p).1.status = 200 →
        (create_order e db p).2.orders
          = db.orders ++ [⟨db.next_order_pk, p.orderId.getD "", p.type.getD "",
              p.namaTeknisi.getD "", p.materials, some (p.fotoCount.getD 0), p.createdBy, 0⟩]
        ∧ (create_order e db p).2.photos
          = db.photos ++ dwRows db.next_order_pk db.next_photo_pk 0 (dwFdOf p)
        ∧ (create_order e db p).2.fat_photos
          = db.fat_photos ++ fatRows db.next_order_pk db.next_fat_pk (fatFfOf p)
        ∧ (create_order e db p).2.photos.length = db.photos.length + (dwFdOf p).length
        ∧ (create_order e db p).2.fat_photos.length
          = db.fat_photos.length + (fatFfOf p).length) := by
  by_cases hv : createValid p
  · by_cases he : createErr e p
    · simp [create_order, hv, he]
    · simp [create_order, hv, he, createSuccessDB, dwRows_length, fatRows_length]
  · simp [create_order, hv]

/-- Witness for C2: the successful creation of `pDW0` on the fresh store
appends the order row and both photo rows. -/
theorem create_order_transactional_witness :
    (create_order noErr initDB pDW0).2.orders
      = initDB.orders ++ [⟨initDB.next_order_pk, pDW0.orderId.getD "", pDW0.type.getD "",
          pDW0.namaTeknisi.getD "", pDW0.materials, some (pDW0.fotoCount.getD 0),
          pDW0.createdBy, 0⟩]
    ∧ (create_order noErr initDB pDW0).2.photos
      = initDB.photos ++ dwRows initDB.next_order_pk initDB.next_photo_pk 0 (dwFdOf pDW0)
    ∧ (create_order noErr initDB pDW0).2.fat_photos
      = initDB.fat_photos ++ fatRows initDB.next_order_pk initDB.next_fat_pk (fatFfOf pDW0)
    ∧ (create_order noErr initDB pDW0).2.photos.length
      = initDB.photos.length + (dwFdOf pDW0).length
    ∧ (create_order noErr initDB pDW0).2.fat_photos.length
      = initDB.fat_photos.length + (fatFfOf pDW0).length :=
  (create_order_transactional noErr initDB pDW0).2 (by decide)

-- ===========================================
-- C7: per-photo failures become placeholders
-- ===========================================

lemma processFotos_split (decode : String → Bool) :
    ∀ (pre : List PdfFoto) (idx : Nat) (f : PdfFoto) (post : List PdfFoto),
      f.image_data ≠ "" → decode f.image_data = false →
      processFotos decode idx (pre ++ f :: post)
        = processFotos decode idx pre
          ++ Block.placeholder (idx + pre.length)
            :: processFotos decode (idx + pre.length + 1) post := by
  intro pre
  induction pre with
  | nil =>
    intro idx f post h1 h2
    simp [processFotos, h1, h2]
  | cons g gs ih =>
    intro idx f post h1 h2
    simp only [List.cons_append, processFotos, List.append_eq]
    rw [ih (idx + 1) f post h1 h2]
    have e1 : idx + 1 + gs.length = idx + (g :: gs).length := by
      rw [List.length_cons]; omega
    rw [e1, List.append_assoc]

/-- C7: if any photo of the report's photo list has an `image_data` value
on which decoding fails (corrupted or non-base64), the generated document
replaces exactly that photo with a textual placeholder carrying its
position, and every remaining photo is still processed — the handler never
raises. -/
theorem pdf_photo_placeholder (decode : String → Bool) (now : String) (db : DB)
    (oid : Nat) (o : OrderRow) (doc : PdfDoc) (pre : List PdfFoto) (f : PdfFoto)
    (post : List PdfFoto)
    (ho : fetchFirst (fun x => x.id == oid) db.orders = some o)
    (hdoc : download_pdf decode now db oid = PdfResult.ok doc)
    (hsplit : pdfFotosOf db o = pre ++ f :: post)
    (hne : f.image_data ≠ "")
    (hfail : decode f.image_data = false) :
    doc.evidence
      = processFotos decode 1 pre
        ++ Block.placeholder (pre.length + 1)
          :: processFotos decode (pre.length + 2) post := by
  have hev : doc.evidence = processFotos decode 1 (pdfFotosOf db o) := by
    unfold download_pdf at hdoc
    rw [ho] at hdoc
    injection hdoc with h
    rw [← h]
  rw [hev, hsplit, processFotos_split decode pre 1 f post hne hfail]
  have e1 : 1 + pre.length = pre.length + 1 := by omega
  rw [e1]

/-- Witness for C7: on the FAT order of `dbFat1` with every decode failing,
the first photo's block is the placeholder and the second photo is still
processed. -/
theorem pdf_photo_placeholder_witness :
    docFat.evidence
      = processFotos (fun _ => false) 1 []
        ++ Block.placeholder ([] : List PdfFoto).length.succ
          :: processFotos (fun _ => false) (([] : List PdfFoto).length + 2)
              [⟨"imgB", "back"⟩] :=
  pdf_photo_placeholder (fun _ => false) "T" dbFat1 1 oFat docFat []
    ⟨"imgA", "front"⟩ [⟨"imgB", "back"⟩] (by decide) (by decide) (by decide)
    (by decide) rfl

-- ===========================================
-- C5: update_order fully replaces photo rows
-- ===========================================

lemma filter_ne_then_eq_nil_dw (oid : Nat) (l : List DwPhoto) :
    (l.filter (fun q => q.order_id != oid)).filter (fun q => q.order_id == oid) = [] := by
  refine filter_eq_nil_of_false (fun q hq => ?_)
  have := (List.mem_filter.mp hq).2
  simp only [bne_iff_ne, ne_eq] at this
  simp [this]

lemma filter_ne_then_eq_nil_fat (oid : Nat) (l : List FatPhoto) :
    (l.filter (fun q => q.order_id != oid)).filter (fun q => q.order_id == oid) = [] := by
  refine filter_eq_nil_of_false (fun q hq => ?_)
  have := (List.mem_filter.mp hq).2
  simp only [bne_iff_ne, ne_eq] at this
  simp [this]

/-- C5: an `update_order` on an existing order whose payload supplies a
`fotoData` list (resp. a `fatPhotos` map) succeeds and afterwards the
`photos` (resp. `fat_photos`) table holds for that order exactly the rows
of the new payload: the row count equals the payload size, the row contents
are the payload entries, and every prior photo row of the order is gone. -/
theorem update_order_full_replace (db : DB) (oid : Nat) (p : UpdateOrderPayload)
    (hex : db.orders.any (fun o => o.id == oid) = true)
    (hwf : (p.fotoData.getD []).all (fun f => f.src.isSome) = true)
    (hpk : ∀ q ∈ db.photos, q.id < db.next_photo_pk)
    (hfk : ∀ q ∈ db.fat_photos, q.id < db.next_fat_pk) :
    (∀ fd, p.fotoData = some fd →
      (update_order db oid p).1.status = 200
      ∧ ((update_order db oid p).2.photos.filter (fun q => q.order_id == oid))
          = dwRows oid db.next_photo_pk 0 fd
      ∧ ((update_order db oid p).2.photos.filter (fun q => q.order_id == oid)).length
          = fd.length
      ∧ (((update_order db oid p).2.photos.filter (fun q => q.order_id == oid)).map
            (fun q => (q.image_data, q.caption)))
          = fd.map (fun f => (f.src.getD "", f.caption.getD ""))
      ∧ ∀ q ∈ db.photos, q.order_id = oid → q ∉ (update_order db oid p).2.photos)
    ∧ (∀ ff, p.fatPhotos = some ff →
      (update_order db oid p).1.status = 200
      ∧ ((update_order db oid p).2.fat_photos.filter (fun q => q.order_id == oid))
          = fatRows oid db.next_fat_pk ff
      ∧ ((update_order db oid p).2.fat_photos.filter (fun q => q.order_id == oid)).length
          = ff.length
      ∧ (((update_order db oid p).2.fat_photos.filter (fun q => q.order_id == oid)).map
            (fun q => (q.photo_key, q.image_data)))
          = ff
      ∧ ∀ q ∈ db.fat_photos, q.order_id = oid → q ∉ (update_order db oid p).2.fat_photos) := by
  have hnone : (p.fotoData.getD []).any (fun f => f.src.isNone) = false := by
    cases hval : (p.fotoData.getD []).any (fun f => f.src.isNone) with
    | false => rfl
    | true =>
      exfalso
      obtain ⟨f, hf, hn⟩ := List.any_eq_true.mp hval
      have h1 := List.all_eq_true.mp hwf f hf
      cases hsrc : f.src with
      | none => rw [hsrc] at h1; simp at h1
      | some v => rw [hsrc] at hn; simp at hn
  have herr : updateErr db oid p = false := by
    simp [updateErr, hex, hnone]
  have hsucc : update_order db oid p = (⟨200⟩, updateSuccessDB db oid p) := by
    simp [update_order, herr]
  constructor
  · intro fd hfd
    have hphotos : (updateSuccessDB db oid p).photos
        = db.photos.filter (fun q => q.order_id != oid)
          ++ dwRows oid db.next_photo_pk 0 fd := by
      simp [updateSuccessDB, hfd]
    have hfil : ((update_order db oid p).2.photos.filter (fun q => q.order_id == oid))
        = dwRows oid db.next_photo_pk 0 fd := by
      rw [hsucc]
      show ((updateSuccessDB db oid p).photos.filter (fun q => q.order_id == oid)) = _
      rw [hphotos, List.filter_append, filter_ne_then_eq_nil_dw, dwRows_filter_self,
        List.nil_append]
    refine ⟨by rw [hsucc], hfil, ?_, ?_, ?_⟩
    · rw [hfil, dwRows_length]
    · rw [hfil, dwRows_map_content]
    · intro q hq hqid hmem
      have hmem2 : q ∈ db.photos.filter (fun q => q.order_id != oid)
          ++ dwRows oid db.next_photo_pk 0 fd := by
        rw [hsucc] at hmem
        rw [← hphotos]
        exact hmem
      rcases List.mem_append.mp hmem2 with h1 | h2
      · have hb := (List.mem_filter.mp h1).2
        rw [hqid] at hb
        simp at hb
      · have hge := (mem_dwRows h2).2.1
        have hlt := hpk q hq
        omega
  · intro ff hff
    have hfatp : (updateSuccessDB db oid p).fat_photos
        = db.fat_photos.filter (fun q => q.order_id != oid)
          ++ fatRows oid db.next_fat_pk ff := by
      simp [updateSuccessDB, hff]
    have hfil : ((update_order db oid p).2.fat_photos.filter (fun q => q.order_id == oid))
        = fatRows oid db.next_fat_pk ff := by
      rw [hsucc]
      show ((updateSuccessDB db oid p).fat_photos.filter (fun q => q.order_id == oid)) = _
      rw [hfatp, List.filter_append, filter_ne_then_eq_nil_fat, fatRows_filter_self,
        List.nil_append]
    refine ⟨by rw [hsucc], hfil, ?_, ?_, ?_⟩
    · rw [hfil, fatRows_length]
    · rw [hfil, fatRows_map_content]
    · intro q hq hqid hmem
      have hmem2 : q ∈ db.fat_photos.filter (fun q => q.order_id != oid)
          ++ fatRows oid db.next_fat_pk ff := by
        rw [hsucc] at hmem
        rw [← hfatp]
        exact hmem
      rcases List.mem_append.mp hmem2 with h1 | h2
      · have hb := (List.mem_filter.mp h1).2
        rw [hqid] at hb
        simp at hb
      · have hge := (mem_fatRows h2).2.1
        have hlt := hfk q hq
        omega

/-- Witness for C5: replacing the two DW photos of `dbDW1` with the single
photo of `pUpdDW0` leaves exactly that one row for order 1. -/
theorem update_order_full_replace_witness :
    (update_order dbDW1 1 pUpdDW0).1.status = 200
    ∧ ((update_order dbDW1 1 pUpdDW0).2.photos.filter (fun q => q.order_id == 1))
        = dwRows 1 dbDW1.next_photo_pk 0 [⟨some "imgC", some "Hasil"⟩]
    ∧ ((update_order dbDW1 1 pUpdDW0).2.photos.filter (fun q => q.order_id == 1)).length
        = ([⟨some "imgC", some "Hasil"⟩] : List DwFotoPayload).length
    ∧ (((update_order dbDW1 1 pUpdDW0).2.photos.filter (fun q => q.order_id == 1)).map
          (fun q => (q.image_data, q.caption)))
        = ([⟨some "imgC", some "Hasil"⟩] : List DwFotoPayload).map
            (fun f => (f.src.getD "", f.caption.getD ""))
    ∧ (∀ q ∈ dbDW1.photos, q.order_id = 1 →
        q ∉ (update_order dbDW1 1 pUpdDW0).2.photos) :=
  (update_order_full_replace dbDW1 1 pUpdDW0 (by decide) (by decide) (by decide)
    (by decide)).1 [⟨some "imgC", some "Hasil"⟩] rfl

-- ===========================================
-- C6: photo round-trip through create and read
-- ===========================================

lemma any_isNone_false {fd : List DwFotoPayload}
    (h : ∀ f ∈ fd, f.src.isSome = true) :
    fd.any (fun f => f.src.isNone) = false := by
  cases hval : fd.any (fun f => f.src.isNone) with
  | false => rfl
  | true =>
    exfalso
    obtain ⟨f, hf, hn⟩ := List.any_eq_true.mp hval
    have h1 := h f hf
    cases hsrc : f.src with
    | none => rw [hsrc] at h1; simp at h1
    | some v => rw [hsrc] at hn; simp at hn

lemma any_const_false {α : Type} (l : List α) : l.any (fun _ => false) = false := by
  induction l with
  | nil => rfl
  | cons x xs ih => simp [ih]

/-- C6: creating a "DW" order with N `fotoData` entries stores exactly N
`photos` rows and reading the order back returns the N `(src, caption)`
entries in submitted `photo_index` order; creating a "FAT" order with a
key-to-image map of size M stores exactly M `fat_photos` rows and reading
the order back returns the same key-to-image map. -/
theorem create_order_photo_roundtrip (db : DB) (p : CreateOrderPayload)
    (hfo : ∀ o ∈ db.orders, o.id ≠ db.next_order_pk)
    (hfp : ∀ q ∈ db.photos, q.order_id ≠ db.next_order_pk)
    (hff : ∀ q ∈ db.fat_photos, q.order_id ≠ db.next_order_pk)
    (hv : createValid p = true) :
    (∀ fd, p.type = some "DW" → p.fotoData = some fd →
      (∀ f ∈ fd, f.src.isSome = true) →
      (create_order noErr db p).1.status = 200
      ∧ ((create_order noErr db p).2.photos.filter
          (fun q => q.order_id == db.next_order_pk)).length = fd.length
      ∧ (get_order_detail (create_order noErr db p).2 db.next_order_pk).status = 200
      ∧ ((get_order_detail (create_order noErr db p).2 db.next_order_pk).order.map
          (fun od => od.fotoData))
        = some (some (fd.map (fun f => (f.src.getD "", f.caption.getD "")))))
    ∧ (∀ ff, p.type = some "FAT" → p.fatPhotos = some ff → (ff.map Prod.fst).Nodup →
      (create_order noErr db p).1.status = 200
      ∧ ((create_order noErr db p).2.fat_photos.filter
          (fun q => q.order_id == db.next_order_pk)).length = ff.length
      ∧ (get_order_detail (create_order noErr db p).2 db.next_order_pk).status = 200
      ∧ ((get_order_detail (create_order noErr db p).2 db.next_order_pk).order.map
          (fun od => od.fatPhotos))
        = some (some ff)) := by
  constructor
  · intro fd htype hfd hsrc
    have hdw : dwFdOf p = fd := by simp [dwFdOf, htype, hfd]
    have herr : createErr noErr p = false := by
      simp [createErr, noErr, hdw, any_isNone_false hsrc, any_const_false]
    have hsucc : create_order noErr db p
        = (⟨200, some db.next_order_pk⟩, createSuccessDB db p) := by
      simp [create_order, hv, herr]
    have hrowty : p.type.getD "" = "DW" := by rw [htype]; rfl
    have hfil : (createSuccessDB db p).photos.filter
        (fun q => q.order_id == db.next_order_pk)
        = dwRows db.next_order_pk db.next_photo_pk 0 fd := by
      have h0 : db.photos.filter (fun q => q.order_id == db.next_order_pk) = [] :=
        filter_eq_nil_of_false (fun q hq => by simp [hfp q hq])
      simp only [createSuccessDB, hdw]
      rw [List.filter_append, h0, dwRows_filter_self, List.nil_append]
    have hfetch : fetchFirst (fun o => o.id == db.next_order_pk)
        (createSuccessDB db p).orders
        = some ⟨db.next_order_pk, p.orderId.getD "", p.type.getD "",
            p.namaTeknisi.getD "", p.materials, some (p.fotoCount.getD 0),
            p.createdBy, 0⟩ := by
      simp only [createSuccessDB]
      rw [fetchFirst_append_right _ _ _ (fun y hy => by simp [hfo y hy])]
      simp
    refine ⟨by rw [hsucc], ?_, ?_, ?_⟩
    · rw [hsucc]
      show ((createSuccessDB db p).photos.filter
        (fun q => q.order_id == db.next_order_pk)).length = fd.length
      rw [hfil, dwRows_length]
    · rw [hsucc]
      show (get_order_detail (createSuccessDB db p) db.next_order_pk).status = 200
      unfold get_order_detail
      rw [hfetch]
    · rw [hsucc]
      show ((get_order_detail (createSuccessDB db p) db.next_order_pk).order.map
        (fun od => od.fotoData)) = _
      unfold get_order_detail
      rw [hfetch]
      simp only [Option.map_some', hrowty]
      rw [if_pos (by rfl)]
      rw [hfil, sortPhotos_dwRows, dwRows_map_content]
  · intro ff htype hff2 hnd
    have hdw : dwFdOf p = [] := by simp [dwFdOf, htype]
    have hfatf : fatFfOf p = ff := by simp [fatFfOf, htype, hff2]
    have herr : createErr noErr p = false := by
      simp [createErr, noErr, hdw, any_const_false]
    have hsucc : create_order noErr db p
        = (⟨200, some db.next_order_pk⟩, createSuccessDB db p) := by
      simp [create_order, hv, herr]
    have hrowty : p.type.getD "" = "FAT" := by rw [htype]; rfl
    have hfil : (createSuccessDB db p).fat_photos.filter
        (fun q => q.order_id == db.next_order_pk)
        = fatRows db.next_order_pk db.next_fat_pk ff := by
      have h0 : db.fat_photos.filter (fun q => q.order_id == db.next_order_pk) = [] :=
        filter_eq_nil_of_false (fun q hq => by simp [hff q hq])
      simp only [createSuccessDB, hfatf]
      rw [List.filter_append, h0, fatRows_filter_self, List.nil_append]
    have hfetch : fetchFirst (fun o => o.id == db.next_order_pk)
        (createSuccessDB db p).orders
        = some ⟨db.next_order_pk, p.orderId.getD "", p.type.getD "",
            p.namaTeknisi.getD "", p.materials, some (p.fotoCount.getD 0),
            p.createdBy, 0⟩ := by
      simp only [createSuccessDB]
      rw [fetchFirst_append_right _ _ _ (fun y hy => by simp [hfo y hy])]
      simp
    refine ⟨by rw [hsucc], ?_, ?_, ?_⟩
    · rw [hsucc]
      show ((createSuccessDB db p).fat_photos.filter
        (fun q => q.order_id == db.next_order_pk)).length = ff.length
      rw [hfil, fatRows_length]
    · rw [hsucc]
      show (get_order_detail (createSuccessDB db p) db.next_order_pk).status = 200
      unfold get_order_detail
      rw [hfetch]
    · rw [hsucc]
      show ((get_order_detail (createSuccessDB db p) db.next_order_pk).order.map
        (fun od => od.fatPhotos)) = _
      unfold get_order_detail
      rw [hfetch]
      simp only [Option.map_some', hrowty]
      rw [if_pos (by rfl)]
      rw [hfil, fatRows_map_content]

/-- Witness for C6: the concrete DW and FAT round-trips on the fresh
store. -/
theorem create_order_photo_roundtrip_witness :
    ((create_order noErr initDB pDW0).1.status = 200
      ∧ ((create_order noErr initDB pDW0).2.photos.filter
          (fun q => q.order_id == initDB.next_order_pk)).length
        = ([⟨some "imgA", some "Before"⟩, ⟨some "imgB", some "After"⟩]
            : List DwFotoPayload).length
      ∧ (get_order_detail (create_order noErr initDB pDW0).2 initDB.next_order_pk).status
        = 200
      ∧ ((get_order_detail (create_order noErr initDB pDW0).2 initDB.next_order_pk).order.map
          (fun od => od.fotoData))
        = some (some (([⟨some "imgA", some "Before"⟩, ⟨some "imgB", some "After"⟩]
            : List DwFotoPayload).map (fun f => (f.src.getD "", f.caption.getD "")))))
    ∧ ((create_order noErr initDB pFAT0).1.status = 200
      ∧ ((create_order noErr initDB pFAT0).2.fat_photos.filter
          (fun q => q.order_id == initDB.next_order_pk)).length
        = ([("front", "imgA"), ("back", "imgB")] : List (String × String)).length
      ∧ (get_order_detail (create_order noErr initDB pFAT0).2 initDB.next_order_pk).status
        = 200
      ∧ ((get_order_detail (create_order noErr initDB pFAT0).2 initDB.next_order_pk).order.map
          (fun od => od.fatPhotos))
        = some (some ([("front", "imgA"), ("back", "imgB")] : List (String × String)))) := by
  constructor
  · exact (create_order_photo_roundtrip initDB pDW0 (by decide) (by decide) (by decide)
      (by decide)).1 [⟨some "imgA", some "Before"⟩, ⟨some "imgB", some "After"⟩]
      rfl rfl (by decide)
  · exact (create_order_photo_roundtrip initDB pFAT0 (by decide) (by decide) (by decide)
      (by decide)).2 [("front", "imgA"), ("back", "imgB")] rfl rfl (by decide)

-- ===========================================
-- C1: photo-set exclusivity invariant
-- ===========================================

lemma storeInv_init : StoreInv initDB := by
  unfold StoreInv pkBounds ordersNodup claimInv
  decide

lemma storeInv_createSuccess (p : CreateOrderPayload) {db : DB} (h : StoreInv db) :
    StoreInv (createSuccessDB db p) := by
  obtain ⟨⟨hbo, hbp, hbf⟩, hnd, hinv⟩ := h
  refine ⟨⟨?_, ?_, ?_⟩, ?_, ?_⟩
  · intro o ho
    have ho2 : o ∈ db.orders ++ [(⟨db.next_order_pk, p.orderId.getD "", p.type.getD "",
        p.namaTeknisi.getD "", p.materials, some (p.fotoCount.getD 0), p.createdBy, 0⟩
        : OrderRow)] := ho
    show o.id < db.next_order_pk + 1
    rcases List.mem_append.mp ho2 with h1 | h2
    · exact Nat.lt_succ_of_lt (hbo o h1)
    · have he : o = _ := List.eq_of_mem_singleton h2
      subst he
      show db.next_order_pk < db.next_order_pk + 1
      omega
  · intro q hq
    have hq2 : q ∈ db.photos ++ dwRows db.next_order_pk db.next_photo_pk 0 (dwFdOf p) := hq
    show q.order_id < db.next_order_pk + 1 ∧ q.id < db.next_photo_pk + (dwFdOf p).length
    rcases List.mem_append.mp hq2 with h1 | h2
    · obtain ⟨b1, b2⟩ := hbp q h1
      omega
    · obtain ⟨e1, e2, e3, _⟩ := mem_dwRows h2
      omega
  · intro q hq
    have hq2 : q ∈ db.fat_photos ++ fatRows db.next_order_pk db.next_fat_pk (fatFfOf p) := hq
    show q.order_id < db.next_order_pk + 1 ∧ q.id < db.next_fat_pk + (fatFfOf p).length
    rcases List.mem_append.mp hq2 with h1 | h2
    · obtain ⟨b1, b2⟩ := hbf q h1
      omega
    · obtain ⟨e1, e2, e3⟩ := mem_fatRows h2
      omega
  · show ((db.orders ++ [(⟨db.next_order_pk, p.orderId.getD "", p.type.getD "",
        p.namaTeknisi.getD "", p.materials, some (p.fotoCount.getD 0), p.createdBy, 0⟩
        : OrderRow)]).map (fun o => o.id)).Nodup
    rw [List.map_append, List.map_cons, List.map_nil]
    refine nodup_append_singleton hnd ?_
    intro hmem
    obtain ⟨o, ho, hid⟩ := List.mem_map.mp hmem
    have hb := hbo o ho
    have hid2 : o.id = db.next_order_pk := hid
    omega
  · intro o ho
    have ho2 : o ∈ db.orders ++ [(⟨db.next_order_pk, p.orderId.getD "", p.type.getD "",
        p.namaTeknisi.getD "", p.materials, some (p.fotoCount.getD 0), p.createdBy, 0⟩
        : OrderRow)] := ho
    rcases List.mem_append.mp ho2 with hold | hnew
    · refine ⟨?_, ?_⟩
      · intro ht fp hfp
        have hfp2 : fp ∈ db.fat_photos
            ++ fatRows db.next_order_pk db.next_fat_pk (fatFfOf p) := hfp
        rcases List.mem_append.mp hfp2 with hf1 | hf2
        · exact (hinv o hold).1 ht fp hf1
        · have he1 := (mem_fatRows hf2).1
          have hb := hbo o hold
          omega
      · intro ht q hq
        have hq2 : q ∈ db.photos
            ++ dwRows db.next_order_pk db.next_photo_pk 0 (dwFdOf p) := hq
        rcases List.mem_append.mp hq2 with h1 | h2
        · exact (hinv o hold).2 ht q h1
        · have he1 := (mem_dwRows h2).1
          have hb := hbo o hold
          omega
    · have he : o = _ := List.eq_of_mem_singleton hnew
      subst he
      refine ⟨?_, ?_⟩
      · intro ht fp hfp
        have hptype : p.type = some "DW" := by
          cases hp : p.type with
          | none => simp [hp] at ht
          | some v =>
            simp [hp] at ht
            rw [ht]
        have hfp2 : fp ∈ db.fat_photos
            ++ fatRows db.next_order_pk db.next_fat_pk (fatFfOf p) := hfp
        rcases List.mem_append.mp hfp2 with hf1 | hf2
        · have hb := (hbf fp hf1).1
          show fp.order_id ≠ db.next_order_pk
          omega
        · have hempty : fatFfOf p = [] := by simp [fatFfOf, hptype]
          rw [hempty] at hf2
          simp [fatRows] at hf2
      · intro ht q hq
        have hptype : p.type = some "FAT" := by
          cases hp : p.type with
          | none => simp [hp] at ht
          | some v =>
            simp [hp] at ht
            rw [ht]
        have hq2 : q ∈ db.photos
            ++ dwRows db.next_order_pk db.next_photo_pk 0 (dwFdOf p) := hq
        rcases List.mem_append.mp hq2 with h1 | h2
        · have hb := (hbp q h1).1
          show q.order_id ≠ db.next_order_pk
          omega
        · have hempty : dwFdOf p = [] := by simp [dwFdOf, hptype]
          rw [hempty] at h2
          simp [dwRows] at h2

lemma storeInv_create (e : Nat → Bool) (p : CreateOrderPayload) {db : DB}
    (h : StoreInv db) : StoreInv (create_order e db p).2 := by
  by_cases hv : createValid p
  · by_cases he : createErr e p
    · have hr : (create_order e db p).2 = db := by simp [create_order, hv, he]
      rw [hr]
      exact h
    · have hr : (create_order e db p).2 = createSuccessDB db p := by
        simp [create_order, hv, he]
      rw [hr]
      exact storeInv_createSuccess p h
  · have hr : (create_order e db p).2 = db := by simp [create_order, hv]
    rw [hr]
    exact h

lemma map_upd_ids (oid : Nat) (p : UpdateOrderPayload) :
    ∀ l : List OrderRow,
      ((l.map (fun o => if o.id == oid
          then { o with materials := p.materials, foto_count := p.fotoCount } else o)).map
        (fun o => o.id)) = l.map (fun o => o.id)
  | [] => rfl
  | o :: os => by
    have hid : ((if o.id == oid
        then { o with materials := p.materials, foto_count := p.fotoCount } else o)
        : OrderRow).id = o.id := by
      by_cases hcase : o.id == oid <;> simp [hcase]
    simp only [List.map_cons, hid, map_upd_ids oid p os]

lemma storeInv_updateSuccess {db : DB} {oid : Nat} {p : UpdateOrderPayload}
    (h : StoreInv db) (hc : updCompat db oid p) (he : updateErr db oid p = false) :
    StoreInv (updateSuccessDB db oid p) := by
  obtain ⟨⟨hbo, hbp, hbf⟩, hnd, hinv⟩ := h
  have hnd' : (db.orders.map (fun o => o.id)).Nodup := hnd
  have hgid : ∀ o : OrderRow, ((if o.id == oid
      then { o with materials := p.materials, foto_count := p.fotoCount } else o)
      : OrderRow).id = o.id := by
    intro o
    by_cases hcase : o.id == oid <;> simp [hcase]
  have hgty : ∀ o : OrderRow, ((if o.id == oid
      then { o with materials := p.materials, foto_count := p.fotoCount } else o)
      : OrderRow).type = o.type := by
    intro o
    by_cases hcase : o.id == oid <;> simp [hcase]
  have hexDW : ∀ fd, p.fotoData = some fd → fd ≠ [] →
      ∃ o2, o2 ∈ db.orders ∧ o2.id = oid := by
    intro fd hfd hne
    have h1 : p.fotoData.isSome = true := by rw [hfd]; rfl
    have h2 : (p.fotoData.getD []).isEmpty = false := by
      rw [hfd]
      cases fd with
      | nil => exact absurd rfl hne
      | cons a as => rfl
    cases hx : db.orders.any (fun o => o.id == oid) with
    | true =>
      obtain ⟨o2, ho2, hb⟩ := List.any_eq_true.mp hx
      exact ⟨o2, ho2, by simpa using hb⟩
    | false =>
      exfalso
      simp [updateErr, h1, h2, hx] at he
  have hexFat : ∀ ff, p.fatPhotos = some ff → ff ≠ [] →
      ∃ o2, o2 ∈ db.orders ∧ o2.id = oid := by
    intro ff hff hne
    have h1 : p.fatPhotos.isSome = true := by rw [hff]; rfl
    have h2 : (p.fatPhotos.getD []).isEmpty = false := by
      rw [hff]
      cases ff with
      | nil => exact absurd rfl hne
      | cons a as => rfl
    cases hx : db.orders.any (fun o => o.id == oid) with
    | true =>
      obtain ⟨o2, ho2, hb⟩ := List.any_eq_true.mp hx
      exact ⟨o2, ho2, by simpa using hb⟩
    | false =>
      exfalso
      simp [updateErr, h1, h2, hx] at he
  have hOrders : (updateSuccessDB db oid p).orders
      = db.orders.map (fun o => if o.id == oid
          then { o with materials := p.materials, foto_count := p.fotoCount } else o) := rfl
  have hMemP : ∀ q, q ∈ (updateSuccessDB db oid p).photos →
      q ∈ db.photos
      ∨ ∃ fd, p.fotoData = some fd ∧ q ∈ dwRows oid db.next_photo_pk 0 fd := by
    intro q hq
    have hq0 : q ∈ (if p.fotoData.isSome then
        db.photos.filter (fun r => r.order_id != oid)
          ++ dwRows oid db.next_photo_pk 0 (p.fotoData.getD [])
      else db.photos) := hq
    cases hsome : p.fotoData with
    | none =>
      rw [hsome] at hq0
      simp at hq0
      exact Or.inl hq0
    | some fd =>
      rw [hsome] at hq0
      simp only [Option.isSome_some, if_true, Option.getD_some] at hq0
      rcases List.mem_append.mp hq0 with h1 | h2
      · exact Or.inl (List.mem_of_mem_filter h1)
      · exact Or.inr ⟨fd, rfl, h2⟩
  have hMemF : ∀ q, q ∈ (updateSuccessDB db oid p).fat_photos →
      q ∈ db.fat_photos
      ∨ ∃ ff, p.fatPhotos = some ff ∧ q ∈ fatRows oid db.next_fat_pk ff := by
    intro q hq
    have hq0 : q ∈ (if p.fatPhotos.isSome then
        db.fat_photos.filter (fun r => r.order_id != oid)
          ++ fatRows oid db.next_fat_pk (p.fatPhotos.getD [])
      else db.fat_photos) := hq
    cases hsome : p.fatPhotos with
    | none =>
      rw [hsome] at hq0
      simp at hq0
      exact Or.inl hq0
    | some ff =>
      rw [hsome] at hq0
      simp only [Option.isSome_some, if_true, Option.getD_some] at hq0
      rcases List.mem_append.mp hq0 with h1 | h2
      · exact Or.inl (List.mem_of_mem_filter h1)
      · exact Or.inr ⟨ff, rfl, h2⟩
  refine ⟨⟨?_, ?_, ?_⟩, ?_, ?_⟩
  · intro o ho
    rw [hOrders] at ho
    obtain ⟨o0, ho0, heq⟩ := List.mem_map.mp ho
    show o.id < db.next_order_pk
    rw [← heq, hgid o0]
    exact hbo o0 ho0
  · intro q hq
    show q.order_id < db.next_order_pk
      ∧ q.id < db.next_photo_pk
          + (if p.fotoData.isSome then (p.fotoData.getD []).length else 0)
    rcases hMemP q hq with h1 | ⟨fd, hfd, h2⟩
    · obtain ⟨b1, b2⟩ := hbp q h1
      have hle : db.next_photo_pk ≤ db.next_photo_pk
          + (if p.fotoData.isSome then (p.fotoData.getD []).length else 0) :=
        Nat.le_add_right _ _
      omega
    · have hfdne : fd ≠ [] := by
        intro hnil
        rw [hnil] at h2
        simp [dwRows] at h2
      obtain ⟨o2, ho2, ho2id⟩ := hexDW fd hfd hfdne
      have hb2 := hbo o2 ho2
      obtain ⟨e1, e2, e3, _⟩ := mem_dwRows h2
      rw [hfd]
      simp only [Option.isSome_some, if_true, Option.getD_some]
      omega
  · intro q hq
    show q.order_id < db.next_order_pk
      ∧ q.id < db.next_fat_pk
          + (if p.fatPhotos.isSome then (p.fatPhotos.getD []).length else 0)
    rcases hMemF q hq with h1 | ⟨ff, hff, h2⟩
    · obtain ⟨b1, b2⟩ := hbf q h1
      have hle : db.next_fat_pk ≤ db.next_fat_pk
          + (if p.fatPhotos.isSome then (p.fatPhotos.getD []).length else 0) :=
        Nat.le_add_right _ _
      omega
    · have hffne : ff ≠ [] := by
        intro hnil
        rw [hnil] at h2
        simp [fatRows] at h2
      obtain ⟨o2, ho2, ho2id⟩ := hexFat ff hff hffne
      have hb2 := hbo o2 ho2
      obtain ⟨e1, e2, e3⟩ := mem_fatRows h2
      rw [hff]
      simp only [Option.isSome_some, if_true, Option.getD_some]
      omega
  · show (((updateSuccessDB db oid p).orders).map (fun o => o.id)).Nodup
    rw [hOrders, map_upd_ids]
    exact hnd'
  · intro o ho
    rw [hOrders] at ho
    obtain ⟨o0, ho0, heq⟩ := List.mem_map.mp ho
    refine ⟨?_, ?_⟩
    · intro ht fp hfp
      have hty : o0.type = "DW" := by
        rw [← hgty o0, heq]
        exact ht
      rcases hMemF fp hfp with h1 | ⟨ff, hff, h2⟩
      · have hold := (hinv o0 ho0).1 hty fp h1
        rw [← heq, hgid o0]
        exact hold
      · have e1 := (mem_fatRows h2).1
        have hffne : ff ≠ [] := by
          intro hnil
          rw [hnil] at h2
          simp [fatRows] at h2
        obtain ⟨o2, ho2, ho2id⟩ := hexFat ff hff hffne
        have hty2 : o2.type = "FAT" := (hc o2 ho2 ho2id).2 (by rw [hff]; simp)
        rw [← heq, hgid o0]
        intro hcontra
        have ho0id : o0.id = oid := by omega
        have heq02 : o0 = o2 := map_nodup_inj hnd' ho0 ho2 (by omega)
        rw [heq02] at hty
        rw [hty2] at hty
        exact absurd hty (by decide)
    · intro ht q hq
      have hty : o0.type = "FAT" := by
        rw [← hgty o0, heq]
        exact ht
      rcases hMemP q hq with h1 | ⟨fd, hfd, h2⟩
      · have hold := (hinv o0 ho0).2 hty q h1
        rw [← heq, hgid o0]
        exact hold
      · have e1 := (mem_dwRows h2).1
        have hfdne : fd ≠ [] := by
          intro hnil
          rw [hnil] at h2
          simp [dwRows] at h2
        obtain ⟨o2, ho2, ho2id⟩ := hexDW fd hfd hfdne
        have hty2 : o2.type = "DW" := (hc o2 ho2 ho2id).1 (by rw [hfd]; simp)
        rw [← heq, hgid o0]
        intro hcontra
        have ho0id : o0.id = oid := by omega
        have heq02 : o0 = o2 := map_nodup_inj hnd' ho0 ho2 (by omega)
        rw [heq02] at hty
        rw [hty2] at hty
        exact absurd hty (by decide)

lemma storeInv_update (oid : Nat) (p : UpdateOrderPayload) {db : DB}
    (h : StoreInv db) (hc : updCompat db oid p) : StoreInv (update_order db oid p).2 := by
  by_cases he : updateErr db oid p
  · have hr : (update_order db oid p).2 = db := by simp [update_order, he]
    rw [hr]
    exact h
  · have hr : (update_order db oid p).2 = updateSuccessDB db oid p := by
      simp [update_order, he]
    rw [hr]
    exact storeInv_updateSuccess h hc (by simpa using he)

lemma storeInv_delete (oid : Nat) {db : DB} (h : StoreInv db) :
    StoreInv (delete_order db oid).2 := by
  obtain ⟨⟨hbo, hbp, hbf⟩, hnd, hinv⟩ := h
  have hnd' : (db.orders.map (fun o => o.id)).Nodup := hnd
  refine ⟨⟨?_, ?_, ?_⟩, ?_, ?_⟩
  · intro o ho
    have ho2 : o ∈ db.orders.filter (fun o => o.id != oid) := ho
    exact hbo o (List.mem_of_mem_filter ho2)
  · intro q hq
    have hq2 : q ∈ db.photos.filter (fun q => q.order_id != oid) := hq
    exact hbp q (List.mem_of_mem_filter hq2)
  · intro q hq
    have hq2 : q ∈ db.fat_photos.filter (fun q => q.order_id != oid) := hq
    exact hbf q (List.mem_of_mem_filter hq2)
  · show ((db.orders.filter (fun o => o.id != oid)).map (fun o => o.id)).Nodup
    exact nodup_map_filter hnd'
  · intro o ho
    have ho2 : o ∈ db.orders.filter (fun o => o.id != oid) := ho
    have ho3 := List.mem_of_mem_filter ho2
    refine ⟨?_, ?_⟩
    · intro ht fp hfp
      have hfp2 : fp ∈ db.fat_photos.filter (fun q => q.order_id != oid) := hfp
      exact (hinv o ho3).1 ht fp (List.mem_of_mem_filter hfp2)
    · intro ht q hq
      have hq2 : q ∈ db.photos.filter (fun q => q.order_id != oid) := hq
      exact (hinv o ho3).2 ht q (List.mem_of_mem_filter hq2)

lemma reachableW_storeInv {db : DB} (h : ReachableW db) : StoreInv db := by
  induction h with
  | init => exact storeInv_init
  | step_create e p hr ih => exact storeInv_create e p ih
  | step_update oid p hr hc ih => exact storeInv_update oid p ih hc
  | step_delete oid hr ih => exact storeInv_delete oid ih

/-- Counterexample to C1 as stated: from the initialized store, create the
DW order of `pDW0` (it gets id 1), then update it with the `fatPhotos`
payload `pUpdFat0` — `update_order` inserts the FAT rows without checking
the order's type, so the reachable state `dbBad` holds a "DW" order owning
a `fat_photos` row. -/
theorem reachable_photo_exclusivity_counterexample :
    ¬ (∀ db : DB, Reachable db → claimInv db) := by
  intro h
  have h2 := h dbBad
    (Reachable.step_update 1 pUpdFat0 (Reachable.step_create noErr pDW0 Reachable.init))
  have h3 : ¬ claimInv dbBad := by
    unfold claimInv
    decide
  exact h3 h2

/-- C1 (amended): the exclusivity invariant — a "DW" order owns no
`fat_photos` rows and a "FAT" order owns no `photos` rows — holds in every
state reachable through `create_order`, `delete_order`, and those
`update_order` requests whose photo payload matches the targeted order's
type (no `fatPhotos` for a "DW" order, no `fotoData` for a "FAT" order);
the restriction is necessary because `update_order` inserts a supplied
collection without checking the order's type. -/
theorem reachableW_photo_exclusivity {db : DB} (h : ReachableW db) : claimInv db :=
  (reachableW_storeInv h).2.2

/-- Witness for C1 (amended): the state holding the freshly created DW
order satisfies the invariant. -/
theorem reachableW_photo_exclusivity_witness :
    ReachableW dbDW1 ∧ claimInv dbDW1 :=
  ⟨ReachableW.step_create noErr pDW0 ReachableW.init,
   reachableW_photo_exclusivity (ReachableW.step_create noErr pDW0 ReachableW.init)⟩
